import Mathlib

/-!
Verification of the sensorpush-python telemetry poller.

Shallow embedding of `src/sensorpush_python.py` (and the earlier iteration
`src/main.py`): Python numbers are modelled by exact rationals `ℚ`,
Python dicts holding sensor readings by ordered association lists
`List (String × PyVal)`, byte strings by `List Nat` (each entry < 256),
and fallible operations by `Option`/sum types.
-/

namespace SensorPush

/-- A Python value as it occurs in a sensor-data record: `None`, a string,
a (rational-valued) number, or the floating not-a-number value `float("nan")`
(kept as a separate constructor because `nan == x` is false for every `x`,
so it never compares equal to the sentinels). -/
inductive PyVal where
  | none : PyVal
  | str : String → PyVal
  | num : ℚ → PyVal
  | nan : PyVal
  deriving DecidableEq

/-- `filter_sensor_data` (sensorpush_python.py:60-62):
`{k: v for k, v in data.items() if v not in (None, "", "NaN")}`.
A dict comprehension builds a fresh dict in iteration order; the input is
not mutated.  Membership in the tuple `(None, "", "NaN")` is equality with
one of the three sentinel values. -/
def filter_sensor_data (data : List (String × PyVal)) : List (String × PyVal) :=
  data.filter (fun kv =>
    decide (¬ (kv.2 = PyVal.none ∨ kv.2 = PyVal.str "" ∨ kv.2 = PyVal.str "NaN")))

/-- C8: The empty-value filter is idempotent: for every record `r`,
`filter(filter(r)) = filter(r)`. -/
theorem filter_sensor_data_idempotent (r : List (String × PyVal)) :
    filter_sensor_data (filter_sensor_data r) = filter_sensor_data r := by
  simp [filter_sensor_data, List.filter_filter]

/-- C10: the filter removes exactly the pairs whose value is `None`, `""` or
`"NaN"`: a pair is in the output iff it is in the input and its value is none
of the three sentinels (so a floating NaN or a whitespace-only string is
kept), and the output is a sublist of the input — each surviving pair is
unchanged and the relative order is preserved.  The input record itself is
not mutated (the embedding is a pure function on a fresh list). -/
theorem filter_sensor_data_spec (r : List (String × PyVal)) :
    (∀ kv : String × PyVal,
        kv ∈ filter_sensor_data r ↔
          kv ∈ r ∧ kv.2 ≠ PyVal.none ∧ kv.2 ≠ PyVal.str "" ∧ kv.2 ≠ PyVal.str "NaN") ∧
      (filter_sensor_data r).Sublist r ∧
      filter_sensor_data [("x", PyVal.nan), ("y", PyVal.str " ")] =
        [("x", PyVal.nan), ("y", PyVal.str " ")] := by
  refine ⟨fun kv => ?_, List.filter_sublist r, by decide⟩
  simp [filter_sensor_data, List.mem_filter]

/-! ## Byte decoding (sensorpush_python.py:161-187)

Python's `int.from_bytes(data, byteorder="little", signed=…)` and the
f-string fixed-point formats `:.3f` / `:.2f`.  Numbers are embedded as exact
rationals: the quantities formatted here (`u16/1000` with 3 digits printed,
`i16/100` with 2 digits printed) have exact decimal expansions of at most
that many fractional digits, so Python's float formatting prints exactly the
decimal digits modelled below. -/

/-- The decimal digit `d` (`0 ≤ d ≤ 9`) as a character. -/
def digitChar (d : Nat) : Char := Char.ofNat (48 + d)

/-- Big-endian decimal digits of `n` (empty for `0`); `fuel ≥ n` suffices. -/
def natDigits : Nat → Nat → List Nat
  | 0, _ => []
  | fuel + 1, n => if n = 0 then [] else natDigits fuel (n / 10) ++ [n % 10]

/-- Python's `str()` of a nonnegative integer. -/
def natStr (n : Nat) : String :=
  if n = 0 then "0" else String.mk ((natDigits n n).map digitChar)

/-- Zero-pad a digit string on the left to `width` characters. -/
def padZeroes (width : Nat) (s : List Char) : List Char :=
  List.replicate (width - s.length) '0' ++ s

/-- The fractional part `n` printed with exactly `width` digits. -/
def fracDigits (width n : Nat) : List Char :=
  padZeroes width ((natDigits n n).map digitChar)

/-- `"{u / scale:.(width)f}"` for a nonnegative numerator `u` whose exact
value has at most `width` decimal digits (`scale = 10 ^ width`). -/
def fmtFixed (width scale u : Nat) : String :=
  natStr (u / scale) ++ "." ++ String.mk (fracDigits width (u % scale))

/-- `"{t / scale:.(width)f}"` for a signed numerator `t`. -/
def fmtFixedInt (width scale : Nat) (t : ℤ) : String :=
  (if t < 0 then "-" else "") ++ fmtFixed width scale t.natAbs

/-- `int.from_bytes(bs, byteorder="little", signed=False)`. -/
def bytesToNatLE (bs : List Nat) : Nat :=
  bs.foldr (fun b acc => b + 256 * acc) 0

/-- `int.from_bytes(bs, byteorder="little", signed=True)`: two's-complement
over `8 * len(bs)` bits. -/
def int_from_bytes_signed (bs : List Nat) : ℤ :=
  if 2 * bytesToNatLE bs ≥ 256 ^ bs.length
  then (bytesToNatLE bs : ℤ) - 256 ^ bs.length
  else (bytesToNatLE bs : ℤ)

/-- One lowercase hexadecimal digit. -/
def hexDigitChar (d : Nat) : Char :=
  if d < 10 then Char.ofNat (48 + d) else Char.ofNat (87 + d)

/-- Python's `bytes.hex()`: two lowercase hex digits per byte. -/
def bytesHex (bs : List Nat) : String :=
  String.mk (bs.flatMap (fun b => [hexDigitChar (b / 16), hexDigitChar (b % 16)]))

/-- Characteristic identifiers.  `sensorpush_python.py` imports these from
`config.py`; the values are the ones in `src/main.py`'s `CHARACTERISTICS`
table (same repository, earlier iteration of the same dispatch). -/
def TEMPERATURE_BYTE : String := "EF090080-11D6-42BA-93B8-9DD7EC090AA9"

/-- Humidity characteristic identifier (source spells it `HUMDITY_BYTE`). -/
def HUMDITY_BYTE : String := "EF090081-11D6-42BA-93B8-9DD7EC090AA9"

/-- Pressure characteristic identifier. -/
def PRESSURE_BYTE : String := "EF090082-11D6-42BA-93B8-9DD7EC090AA9"

/-- Battery characteristic identifier. -/
def BATTERY_BYTE : String := "EF090007-11D6-42BA-93B8-9DD7EC090AA9"

/-- `CHARACTERISTICS` (src/main.py:10-15): identifier → record field name,
in declaration order. -/
def CHARACTERISTICS : List (String × String) :=
  [(TEMPERATURE_BYTE, "Temperature (°C)"),
   (HUMDITY_BYTE, "Relative Humidity (%)"),
   (PRESSURE_BYTE, "Barometric Pressure (Pa)"),
   (BATTERY_BYTE, "Battery Voltage (mV)")]

/-- The decode dispatch of `read_sensor_data` (sensorpush_python.py:172-187):
temperature/humidity = signed LE int ÷ 100, pressure = unsigned LE int ÷ 100,
battery = composite `"<volts:.3f> V (Temperature: <t:.2f>°C)"` string from
`data[:2]` (unsigned ÷ 1000) and `data[2:]` (signed ÷ 100), anything else =
lowercase hex of the payload. -/
def decode (char_uuid : String) (data : List Nat) : PyVal :=
  if char_uuid = TEMPERATURE_BYTE then
    PyVal.num ((int_from_bytes_signed data : ℚ) / 100)
  else if char_uuid = HUMDITY_BYTE then
    PyVal.num ((int_from_bytes_signed data : ℚ) / 100)
  else if char_uuid = PRESSURE_BYTE then
    PyVal.num ((bytesToNatLE data : ℚ) / 100)
  else if char_uuid = BATTERY_BYTE then
    PyVal.str (fmtFixed 3 1000 (bytesToNatLE (data.take 2)) ++
      " V (Temperature: " ++
      fmtFixedInt 2 100 (int_from_bytes_signed (data.drop 2)) ++ "°C)")
  else
    PyVal.str (bytesHex data)

/-! ## Spec-side definitions for the decode claims

These two follow the spec's words (`int16le`, `u16le` on explicit byte
pairs), to be compared with the source-side `int_from_bytes_signed` /
`bytesToNatLE` above. -/

/-- From the spec's words: `i16le([b0,b1])`, the signed 16-bit little-endian
value of the byte pair. -/
def i16le (b0 b1 : Nat) : ℤ :=
  if b0 + 256 * b1 < 32768 then (b0 : ℤ) + 256 * b1
  else (b0 : ℤ) + 256 * b1 - 65536

/-- From the spec's words: `u16le([b0,b1])`, the unsigned 16-bit
little-endian value of the byte pair. -/
def u16le (b0 b1 : Nat) : Nat := b0 + 256 * b1

/-- On a 2-byte payload the general signed decode is the spec's `i16le`. -/
theorem int_from_bytes_signed_pair (b0 b1 : Nat) :
    int_from_bytes_signed [b0, b1] = i16le b0 b1 := by
  simp only [int_from_bytes_signed, bytesToNatLE, i16le, List.foldr,
    List.length_cons, List.length_nil]
  norm_num
  split_ifs <;> omega

/-- C1: for every valid 2-byte little-endian payload of the temperature or
humidity characteristic, the decoder yields exactly `i16le(b) / 100` as an
exact rational — the division is applied to the decoded integer with
fixed-point semantics, not a floating rounding of the raw value. -/
theorem decode_temperature_humidity (b0 b1 : Nat) (h0 : b0 < 256) (h1 : b1 < 256) :
    decode TEMPERATURE_BYTE [b0, b1] = PyVal.num ((i16le b0 b1 : ℚ) / 100) ∧
      decode HUMDITY_BYTE [b0, b1] = PyVal.num ((i16le b0 b1 : ℚ) / 100) := by
  constructor
  · unfold decode
    rw [if_pos rfl, int_from_bytes_signed_pair]
  · unfold decode
    rw [if_neg (by decide), if_pos rfl, int_from_bytes_signed_pair]

/-- Witness for C1 at `b = [0x39, 0x09]` (`i16le = 2361`, value `23.61`). -/
theorem decode_temperature_humidity_at_payload :
    decode TEMPERATURE_BYTE [57, 9] = PyVal.num ((i16le 57 9 : ℚ) / 100) ∧
      decode HUMDITY_BYTE [57, 9] = PyVal.num ((i16le 57 9 : ℚ) / 100) :=
  decode_temperature_humidity 57 9 (by decide) (by decide)

/-- From the spec's words: the battery payload `[b0,b1,b2,b3]` decodes to
`"{u16le([b0,b1])/1000:.3f} V (Temperature: {i16le([b2,b3])/100:.2f}°C)"`. -/
def spec_battery_string (b0 b1 b2 b3 : Nat) : String :=
  fmtFixed 3 1000 (u16le b0 b1) ++ " V (Temperature: " ++
    fmtFixedInt 2 100 (i16le b2 b3) ++ "°C)"

/-- C2: every 4-byte battery payload decodes to the composite string built
from the unsigned LE volts (÷ 1000, 3 decimals) and the signed LE internal
temperature (÷ 100, 2 decimals); in particular `E8 03 64 00` decodes to
`"1.000 V (Temperature: 1.00°C)"`. -/
theorem decode_battery (b0 b1 b2 b3 : Nat)
    (h0 : b0 < 256) (h1 : b1 < 256) (h2 : b2 < 256) (h3 : b3 < 256) :
    decode BATTERY_BYTE [b0, b1, b2, b3] =
        PyVal.str (spec_battery_string b0 b1 b2 b3) ∧
      decode BATTERY_BYTE [0xE8, 0x03, 0x64, 0x00] =
        PyVal.str "1.000 V (Temperature: 1.00°C)" := by
  constructor
  · unfold decode
    rw [if_neg (by decide), if_neg (by decide), if_neg (by decide), if_pos rfl]
    have htake : ([b0, b1, b2, b3].take 2) = [b0, b1] := rfl
    have hdrop : ([b0, b1, b2, b3].drop 2) = [b2, b3] := rfl
    rw [htake, hdrop, int_from_bytes_signed_pair]
    have hu : bytesToNatLE [b0, b1] = u16le b0 b1 := by
      simp [bytesToNatLE, u16le]
    rw [hu, spec_battery_string]
  · decide

/-- Witness for C2 at the payload `E8 03 64 00`. -/
theorem decode_battery_at_payload :
    decode BATTERY_BYTE [0xE8, 0x03, 0x64, 0x00] =
        PyVal.str (spec_battery_string 0xE8 0x03 0x64 0x00) ∧
      decode BATTERY_BYTE [0xE8, 0x03, 0x64, 0x00] =
        PyVal.str "1.000 V (Temperature: 1.00°C)" :=
  decode_battery 0xE8 0x03 0x64 0x00 (by decide) (by decide) (by decide) (by decide)

/-! ## Retry policy (sensorpush_python.py:145-213)

`read_sensor_data(sensor_name, args, retries=5, delay=10)` wraps the whole
connect→read→persist body in `attempt = 0; while attempt < retries:`; on an
exception it increments `attempt` and, when `attempt < retries` still holds,
sleeps `delay` seconds before the next attempt, otherwise logs
"Max retries reached, giving up on this cycle" and falls out of the loop —
the coroutine returns to its caller without raising either way.  A
connection attempt is abstracted as a boolean capability indexed by attempt
number; the trace records how many attempts were made, how many
`delay`-second sleeps were taken, and whether the body succeeded. -/

/-- Outcome trace of the retry loop: attempts made, fixed-duration sleeps
taken, and whether a connection attempt succeeded. -/
structure RetryTrace where
  attempts : Nat
  sleeps : Nat
  success : Bool
  deriving DecidableEq

/-- Default `retries` argument of `read_sensor_data`. -/
def read_sensor_data_retries : Nat := 5

/-- Default `delay` argument of `read_sensor_data` (seconds per sleep). -/
def read_sensor_data_delay : Nat := 10

/-- The `while attempt < retries` loop, with `idx` the number of attempts
already made and the second argument the remaining iterations
(`retries - idx`).  On failure the code sleeps only when the incremented
attempt count is still below `retries`, i.e. when iterations remain. -/
def retryLoop (connect : Nat → Bool) (idx : Nat) : Nat → RetryTrace
  | 0 => ⟨0, 0, false⟩
  | rem + 1 =>
    if connect idx then ⟨1, 0, true⟩
    else
      let t := retryLoop connect (idx + 1) rem
      ⟨t.attempts + 1, (if 0 < rem then 1 else 0) + t.sleeps, t.success⟩

/-- One invocation of the retry wrapper with a given attempt budget. -/
def read_sensor_data_retry (connect : Nat → Bool) (retries : Nat) : RetryTrace :=
  retryLoop connect 0 retries

/-- An always-failing capability exhausts the budget: `rem` attempts,
`rem - 1` sleeps, no success. -/
theorem retryLoop_const_false (connect : Nat → Bool)
    (hc : ∀ i, connect i = false) :
    ∀ (rem idx : Nat), retryLoop connect idx rem = ⟨rem, rem - 1, false⟩ := by
  intro rem
  induction rem with
  | zero => intro idx; rfl
  | succ r ih =>
    intro idx
    simp only [retryLoop, hc idx, if_false, ih (idx + 1), Bool.false_eq_true,
      RetryTrace.mk.injEq, and_true, true_and]
    split_ifs <;> omega

/-- A capability that fails at `idx, …, idx + m - 1` and succeeds at
`idx + m` stops the loop after `m + 1` attempts and `m` sleeps. -/
theorem retryLoop_first_success (connect : Nat → Bool) :
    ∀ (m rem idx : Nat), (∀ i, i < m → connect (idx + i) = false) →
      connect (idx + m) = true → m < rem →
      retryLoop connect idx rem = ⟨m + 1, m, true⟩ := by
  intro m
  induction m with
  | zero =>
    intro rem idx _ hs hrem
    obtain ⟨r, rfl⟩ := Nat.exists_eq_add_of_lt hrem
    simp only [retryLoop]
    rw [Nat.add_zero] at hs
    simp [hs]
  | succ m ih =>
    intro rem idx hf hs hrem
    obtain ⟨r, rfl⟩ := Nat.exists_eq_add_of_lt hrem
    have h0 : connect idx = false := by
      have := hf 0 (Nat.succ_pos m)
      simpa using this
    have hrec : retryLoop connect (idx + 1) (m + 1 + r) = ⟨m + 1, m, true⟩ := by
      refine ih (m + 1 + r) (idx + 1) (fun i hi => ?_) ?_ (by omega)
      · have := hf (i + 1) (by omega)
        simpa [Nat.add_comm, Nat.add_left_comm, Nat.add_assoc] using this
      · have h := hs
        have : idx + 1 + m = idx + (m + 1) := by omega
        rw [this, h]
    simp only [retryLoop, h0, if_false, hrec, Bool.false_eq_true,
      RetryTrace.mk.injEq, and_true, true_and]
    split_ifs <;> omega

/-- C3: the retry policy of `read_sensor_data`.  The default budget is 5
attempts with a fixed 10-second delay between consecutive attempts; a
capability that raises on every attempt yields exactly `retries` attempts
with `retries - 1` delays and a terminal failure (the function returns to
its caller without raising); a capability that fails `N - 1` times and then
succeeds completes the cycle with exactly `N` attempts and `N - 1` delays. -/
theorem read_sensor_data_retry_policy :
    read_sensor_data_retries = 5 ∧ read_sensor_data_delay = 10 ∧
      (∀ (connect : Nat → Bool) (retries : Nat), (∀ i, connect i = false) →
        read_sensor_data_retry connect retries =
          ⟨retries, retries - 1, false⟩) ∧
      (∀ (connect : Nat → Bool) (retries N : Nat), 1 ≤ N → N ≤ retries →
        (∀ i, i < N - 1 → connect i = false) → connect (N - 1) = true →
        read_sensor_data_retry connect retries = ⟨N, N - 1, true⟩) := by
  refine ⟨rfl, rfl, ?_, ?_⟩
  · intro connect retries hc
    exact retryLoop_const_false connect hc retries 0
  · intro connect retries N hN hNr hf hs
    have := retryLoop_first_success connect (N - 1) retries 0
      (fun i hi => by simpa using hf i hi) (by simpa using hs) (by omega)
    rw [read_sensor_data_retry, this]
    simp only [RetryTrace.mk.injEq, and_true, true_and]
    omega

/-- Witness for C3: with the default budget of 5, an always-failing
capability makes 5 attempts and 4 sleeps; one that fails twice then
succeeds makes 3 attempts and 2 sleeps. -/
theorem read_sensor_data_retry_policy_at_inputs :
    read_sensor_data_retry (fun _ => false) 5 = ⟨5, 4, false⟩ ∧
      read_sensor_data_retry (fun i => i == 2) 5 = ⟨3, 2, true⟩ :=
  ⟨read_sensor_data_retry_policy.2.2.1 (fun _ => false) 5 (fun _ => rfl),
   read_sensor_data_retry_policy.2.2.2 (fun i => i == 2) 5 3
     (by decide) (by decide) (by decide) (by decide)⟩

/-! ## Discovery and the acquisition cycle (sensorpush_python.py:65-77, 145-204)

`find_sensor` scans and returns the first device whose (truthy) advertised
name contains the requested name as a substring.  The cycle body then reads
the four characteristics (a failed trigger-write/read is `Option.none` and
the attribute is omitted), appends `device_name`, filters, and either hands
the cleaned record to the sink (`write_data`) or skips the write. -/

/-- A discovered BLE peripheral: `device.name` may be `None`. -/
structure Device where
  name : Option String
  deriving DecidableEq

/-- Python's substring test `pat in hay`. -/
def strContainsSub (hay pat : String) : Bool :=
  (List.range (hay.data.length + 1)).any
    (fun i => ((hay.data.drop i).take pat.data.length) == pat.data)

/-- The scan predicate `device.name and sensor_name in device.name`:
a `None` or empty name is falsy, otherwise substring containment. -/
def deviceMatches (sensor_name : String) (d : Device) : Bool :=
  match d.name with
  | Option.none => false
  | Option.some s => (!(s == "")) && strContainsSub s sensor_name

/-- `find_sensor` (sensorpush_python.py:65-77): first matching device of the
scan result, `none` when no device matches. -/
def find_sensor (sensor_name : String) (devices : List Device) : Option Device :=
  devices.find? (deviceMatches sensor_name)

/-- The hard-coded live-mode target name (sensorpush_python.py:268). -/
def live_sensor_name : String := "SensorPush HTP.xw DD6"

/-- The per-characteristic read results assembled into `results`
(sensorpush_python.py:159-192): iteration in `CHARACTERISTICS` order; a
characteristic whose trigger-write or read raised (`Option.none`) is
omitted; a successful payload is decoded by the dispatch above. -/
def assembleResults (reads : String → Option (List Nat)) : List (String × PyVal) :=
  CHARACTERISTICS.filterMap
    (fun cd => (reads cd.1).map (fun data => (cd.2, decode cd.1 data)))

/-- What one connected cycle body does with the record: call the sink with
the cleaned record, or skip the write ("no valid sensor data found"). -/
inductive CycleOutcome where
  | written : List (String × PyVal) → CycleOutcome
  | skippedNoData : CycleOutcome
  deriving DecidableEq

/-- sensorpush_python.py:194-204: append `device_name`, filter, and write
iff the cleaned record is non-empty (`if cleaned_results:`). -/
def cycleBody (device_name : String) (reads : String → Option (List Nat)) :
    CycleOutcome :=
  let cleaned := filter_sensor_data
    (assembleResults reads ++ [("device_name", PyVal.str device_name)])
  if cleaned = [] then CycleOutcome.skippedNoData else CycleOutcome.written cleaned

/-- A successful substring test needs the haystack at least as long as the
pattern. -/
theorem strContainsSub_length (s pat : String)
    (h : strContainsSub s pat = true) : pat.data.length ≤ s.data.length := by
  simp only [strContainsSub, List.any_eq_true, List.mem_range] at h
  obtain ⟨i, _, heq⟩ := h
  have heq' : (s.data.drop i).take pat.data.length = pat.data :=
    by simpa using heq
  have hlen := congrArg List.length heq'
  simp only [List.length_take, List.length_drop] at hlen
  omega

/-- A device returned by `find_sensor` for the live target carries an
advertised name that is neither empty nor the `"NaN"` sentinel (it contains
the 21-character target as a substring). -/
theorem find_sensor_live_name_valid (devices : List Device) (d : Device)
    (hfind : find_sensor live_sensor_name devices = Option.some d) :
    ∃ s : String, d.name = Option.some s ∧ s ≠ "" ∧ s ≠ "NaN" := by
  have hmatch := List.find?_some hfind
  match hd : d.name with
  | Option.none => rw [deviceMatches, hd] at hmatch; exact absurd hmatch (by simp)
  | Option.some s =>
    rw [deviceMatches, hd, Bool.and_eq_true] at hmatch
    obtain ⟨hne, hsub⟩ := hmatch
    have hlen := strContainsSub_length s live_sensor_name hsub
    have h21 : live_sensor_name.data.length = 21 := by decide
    refine ⟨s, rfl, ?_, ?_⟩
    · intro h
      rw [h] at hne
      exact absurd hne (by decide)
    · intro h
      rw [h] at hlen
      rw [h21] at hlen
      exact absurd hlen (by decide)

/-- C9: in every live-mode cycle whose discovery and connection succeed, the
record assembled before filtering contains `device_name` mapped to the
discovered peripheral's non-empty advertised name; hence the filtered
record is non-empty and the sink is called — whatever the four attribute
reads did, including all of them failing. -/
theorem live_cycle_always_writes (devices : List Device) (d : Device)
    (reads : String → Option (List Nat))
    (hfind : find_sensor live_sensor_name devices = Option.some d) :
    ∃ s : String, d.name = Option.some s ∧ s ≠ "" ∧
      ("device_name", PyVal.str s) ∈
        assembleResults reads ++ [("device_name", PyVal.str s)] ∧
      filter_sensor_data
        (assembleResults reads ++ [("device_name", PyVal.str s)]) ≠ [] ∧
      cycleBody s reads = CycleOutcome.written (filter_sensor_data
        (assembleResults reads ++ [("device_name", PyVal.str s)])) := by
  obtain ⟨s, hname, hne, hnan⟩ := find_sensor_live_name_valid devices d hfind
  have hkeep : filter_sensor_data [("device_name", PyVal.str s)] =
      [("device_name", PyVal.str s)] := by
    simp only [filter_sensor_data, List.filter]
    rw [decide_eq_true]
    simp only [not_or]
    exact ⟨by simp, by simp [hne], by simp [hnan]⟩
  have hsplit : filter_sensor_data
      (assembleResults reads ++ [("device_name", PyVal.str s)]) =
      filter_sensor_data (assembleResults reads) ++
        [("device_name", PyVal.str s)] := by
    rw [filter_sensor_data, List.filter_append]
    rw [show (assembleResults reads).filter _ =
      filter_sensor_data (assembleResults reads) from rfl]
    rw [show List.filter _ [("device_name", PyVal.str s)] =
      filter_sensor_data [("device_name", PyVal.str s)] from rfl, hkeep]
  have hnonempty : filter_sensor_data
      (assembleResults reads ++ [("device_name", PyVal.str s)]) ≠ [] := by
    rw [hsplit]
    exact List.append_ne_nil_of_right_ne_nil _ (by simp)
  refine ⟨s, hname, hne, List.mem_append_right _ (List.mem_singleton.mpr rfl),
    hnonempty, ?_⟩
  unfold cycleBody
  rw [if_neg hnonempty]

/-- Witness for C9: a scan returning exactly the live sensor, with every
attribute read failing. -/
theorem live_cycle_always_writes_at_scan :
    ∃ s : String,
      (Device.mk (Option.some "SensorPush HTP.xw DD6")).name = Option.some s ∧
      s ≠ "" ∧
      ("device_name", PyVal.str s) ∈
        assembleResults (fun _ => Option.none) ++ [("device_name", PyVal.str s)] ∧
      filter_sensor_data (assembleResults (fun _ => Option.none) ++
        [("device_name", PyVal.str s)]) ≠ [] ∧
      cycleBody s (fun _ => Option.none) =
        CycleOutcome.written (filter_sensor_data
          (assembleResults (fun _ => Option.none) ++
            [("device_name", PyVal.str s)])) :=
  live_cycle_always_writes
    [Device.mk (Option.some "SensorPush HTP.xw DD6")]
    (Device.mk (Option.some "SensorPush HTP.xw DD6"))
    (fun _ => Option.none) (by decide)

/-- C4 counterexample: a cycle in which all four attribute decodes are
invalid (every read fails) still produces a non-empty filtered record —
`{device_name: "SensorPush HTP.xw DD6"}` — and the sink IS called: the
outcome is `written`, not `skippedNoData`, because `device_name` is added
to the record before filtering. -/
theorem all_invalid_cycle_still_writes :
    cycleBody "SensorPush HTP.xw DD6" (fun _ => Option.none) =
        CycleOutcome.written
          [("device_name", PyVal.str "SensorPush HTP.xw DD6")] ∧
      cycleBody "SensorPush HTP.xw DD6" (fun _ => Option.none) ≠
        CycleOutcome.skippedNoData := by
  constructor
  · rfl
  · intro h
    exact absurd h (by decide)

/-- C4 amended: a live-mode cycle whose four attribute decodes are all
invalid is NOT skipped: the filtered record still holds the `device_name`
pair (the discovered live-target name is non-empty and not a sentinel), so
the sink is called with exactly that one-field record.  The skipped branch
would require the whole filtered record, `device_name` included, to be
empty. -/
theorem all_invalid_cycle_amended (devices : List Device) (d : Device)
    (s : String)
    (hfind : find_sensor live_sensor_name devices = Option.some d)
    (hname : d.name = Option.some s) :
    cycleBody s (fun _ => Option.none) =
      CycleOutcome.written [("device_name", PyVal.str s)] := by
  obtain ⟨s', hname', hne, hnan⟩ := find_sensor_live_name_valid devices d hfind
  rw [hname] at hname'
  cases hname'
  have hassemble : assembleResults (fun _ => Option.none) = [] := rfl
  rw [cycleBody]
  simp only [hassemble, List.nil_append]
  have hkeep : filter_sensor_data [("device_name", PyVal.str s)] =
      [("device_name", PyVal.str s)] := by
    simp only [filter_sensor_data, List.filter]
    rw [decide_eq_true]
    simp only [not_or]
    exact ⟨by simp, by simp [hne], by simp [hnan]⟩
  rw [hkeep]
  simp

/-- Witness for the amended C4 at a concrete scan result. -/
theorem all_invalid_cycle_amended_at_scan :
    cycleBody "SensorPush HTP.xw DD6" (fun _ => Option.none) =
      CycleOutcome.written [("device_name", PyVal.str "SensorPush HTP.xw DD6")] :=
  all_invalid_cycle_amended
    [Device.mk (Option.some "SensorPush HTP.xw DD6")]
    (Device.mk (Option.some "SensorPush HTP.xw DD6"))
    "SensorPush HTP.xw DD6" (by decide) rfl

/-! ## Single-instance guard (sensorpush_python.py:17-43)

Module-level lockfile logic, run before any other work (before logging is
even configured, and long before discovery).  The lockfile either is absent,
or holds text: `int(text)` may fail (`ValueError`, "corrupted"), and
`os.kill(pid, 0)` either succeeds (owner alive → `sys.exit(1)`), raises
`ProcessLookupError` (stale → reclaim) or `PermissionError` (→ `sys.exit(1)`
"for safety").  On the proceed path the process writes its own pid and
registers `remove_lock` with `atexit`, which the interpreter runs on normal
completion, on `KeyboardInterrupt`, and on an unhandled exception. -/

/-- Result of the `os.kill(pid, 0)` probe. -/
inductive AliveResult where
  | alive : AliveResult
  | dead : AliveResult
  | permissionDenied : AliveResult
  deriving DecidableEq

/-- How the lockfile block ends: duplicate-instance exit (`sys.exit(1)` at
line 29), permission-failure exit (`sys.exit(1)` at line 38), or fall-through
into the rest of the program. -/
inductive StartupOutcome where
  | exitDuplicate : StartupOutcome
  | exitPermission : StartupOutcome
  | proceed : StartupOutcome
  deriving DecidableEq

/-- The whitespace `int()` strips around its argument (ASCII forms:
space, tab, LF, CR, vertical tab, form feed). -/
def isPyIntSpace (c : Char) : Bool :=
  c.isWhitespace || c = '\x0b' || c = '\x0c'

/-- Digits of an `int()` literal after the first one: a single underscore
may separate digit groups (`int("1_0") = 10`), but may not lead, trail or
double up. -/
def pyIntDigitsRest (acc : Nat) : List Char → Option Nat
  | [] => Option.some acc
  | c :: cs =>
    if c = '_' then
      match cs with
      | [] => Option.none
      | c2 :: cs2 =>
        if c2.isDigit then pyIntDigitsRest (10 * acc + (c2.toNat - 48)) cs2
        else Option.none
    else if c.isDigit then pyIntDigitsRest (10 * acc + (c.toNat - 48)) cs
    else Option.none

/-- The digit part of an `int()` literal: at least one digit, underscores
only between digits. -/
def pyIntDigits : List Char → Option Nat
  | [] => Option.none
  | c :: cs =>
    if c.isDigit then pyIntDigitsRest (c.toNat - 48) cs else Option.none

/-- Python's `int(s)` on the lockfile text, `none` = `ValueError`:
surrounding whitespace is stripped (`int("123\n") = 123`), then an
optional `+`/`-` sign and a nonempty digit run with optional single
underscores between digits; anything else raises.  The value is an
integer — `int("-5")` is legal and `os.kill` accepts negative ids
(process groups).  Non-ASCII digit and whitespace forms are outside the
model. -/
def parsePid (s : String) : Option ℤ :=
  match ((s.data.dropWhile isPyIntSpace).reverse.dropWhile isPyIntSpace).reverse with
  | '+' :: rest => (pyIntDigits rest).map (fun n => (n : ℤ))
  | '-' :: rest => (pyIntDigits rest).map (fun n => -(n : ℤ))
  | rest => (pyIntDigits rest).map (fun n => (n : ℤ))

/-- `remove_lock` (sensorpush_python.py:19-21): delete the lockfile if it
exists; afterwards it is absent either way. -/
def remove_lock (lock : Option String) : Option String :=
  match lock with
  | Option.some _ => Option.none
  | Option.none => Option.none

/-- The startup lockfile block (sensorpush_python.py:23-41) as a function of
the current lockfile content and the `os.kill(pid, 0)` probe: returns how
the block exits and the lockfile content afterwards. -/
def startup (existing : Option String) (alive : ℤ → AliveResult)
    (myPid : Nat) : StartupOutcome × Option String :=
  match existing with
  | Option.none => (StartupOutcome.proceed, Option.some (natStr myPid))
  | Option.some content =>
    match parsePid content with
    | Option.none => (StartupOutcome.proceed, Option.some (natStr myPid))
    | Option.some pid =>
      match alive pid with
      | AliveResult.alive => (StartupOutcome.exitDuplicate, Option.some content)
      | AliveResult.dead => (StartupOutcome.proceed, Option.some (natStr myPid))
      | AliveResult.permissionDenied =>
          (StartupOutcome.exitPermission, Option.some content)

/-- The exit paths on which the interpreter runs `atexit` handlers. -/
inductive ExitPath where
  | normalCompletion : ExitPath
  | interruptSignal : ExitPath
  | unhandledFault : ExitPath
  deriving DecidableEq

/-- Lockfile state after the process ends through any of the three exit
paths: `atexit.register(remove_lock)` (line 43) runs `remove_lock` on each
of them. -/
def lockAfterExit (lock : Option String) (_p : ExitPath) : Option String :=
  remove_lock lock

/-- C7: the single-instance guard.  A live token (parsable pid whose probe
says alive) makes the process exit with the duplicate-instance condition
before any discovery, leaving the other owner's token in place; a stale
token (dead pid) or a corrupted token (unparsable content) is reclaimed and
the run proceeds with the process's own identity recorded; and on every
exit path of a proceeding run the recorded token is removed. -/
theorem single_instance_guard (myPid : Nat) :
    (∀ (alive : ℤ → AliveResult) (content : String) (pid : ℤ),
        parsePid content = Option.some pid → alive pid = AliveResult.alive →
        startup (Option.some content) alive myPid =
          (StartupOutcome.exitDuplicate, Option.some content)) ∧
      (∀ (alive : ℤ → AliveResult) (content : String) (pid : ℤ),
        parsePid content = Option.some pid → alive pid = AliveResult.dead →
        startup (Option.some content) alive myPid =
          (StartupOutcome.proceed, Option.some (natStr myPid))) ∧
      (∀ (alive : ℤ → AliveResult) (content : String),
        parsePid content = Option.none →
        startup (Option.some content) alive myPid =
          (StartupOutcome.proceed, Option.some (natStr myPid))) ∧
      (∀ (lock : Option String) (p : ExitPath),
        lockAfterExit lock p = Option.none) := by
  refine ⟨?_, ?_, ?_, ?_⟩
  · intro alive content pid hparse halive
    simp only [startup, hparse, halive]
  · intro alive content pid hparse halive
    simp only [startup, hparse, halive]
  · intro alive content hparse
    simp only [startup, hparse]
  · intro lock p
    cases lock <;> rfl

/-- Witness for C7: a live token `"123\n"` (trailing newline —
`int("123\n") = 123`) forces the duplicate exit; a dead `" 123"` is
reclaimed; a corrupted `"pid?"` is reclaimed; the recorded token is gone
after an interrupt exit. -/
theorem single_instance_guard_at_inputs :
    startup (Option.some "123\n") (fun _ => AliveResult.alive) 77 =
        (StartupOutcome.exitDuplicate, Option.some "123\n") ∧
      startup (Option.some " 123") (fun _ => AliveResult.dead) 77 =
        (StartupOutcome.proceed, Option.some (natStr 77)) ∧
      startup (Option.some "pid?") (fun _ => AliveResult.alive) 77 =
        (StartupOutcome.proceed, Option.some (natStr 77)) ∧
      lockAfterExit (Option.some (natStr 77)) ExitPath.interruptSignal =
        Option.none :=
  ⟨(single_instance_guard 77).1 (fun _ => AliveResult.alive) "123\n" 123
      (by decide) rfl,
   (single_instance_guard 77).2.1 (fun _ => AliveResult.dead) " 123" 123
      (by decide) rfl,
   (single_instance_guard 77).2.2.1 (fun _ => AliveResult.alive) "pid?"
      (by decide),
   (single_instance_guard 77).2.2.2 (Option.some (natStr 77))
      ExitPath.interruptSignal⟩

/-! ## Remote-sink battery column (sensorpush_python.py:80-102)

`write_to_supabase` builds the insert payload; the `battery_voltage_mv`
column is `v if isinstance(v, (int, float)) else (float(v.split()[0]) * 1000
if v else None)` for `v = data.get("Battery Voltage (mV)")` (conditional
expressions associate to the right).  Python's builtin `float()` is modelled
on the plain decimal literals that occur here: optional minus sign, digits,
optionally a dot and fraction digits; anything else raises `ValueError`. -/

/-- `str.split()[0]`: drop leading whitespace, take up to the next
whitespace. -/
def pySplitFirst (s : String) : String :=
  String.mk ((s.data.dropWhile Char.isWhitespace).takeWhile
    (fun c => !c.isWhitespace))

/-- Fraction-digit run of a decimal literal: accumulates the numerator and
the power-of-ten denominator; fails on a non-digit. -/
def parseFracAcc (num den : Nat) : List Char → Option (Nat × Nat)
  | [] => Option.some (num, den)
  | c :: cs =>
    if c.isDigit then parseFracAcc (10 * num + (c.toNat - 48)) (10 * den) cs
    else Option.none

/-- Body of a decimal literal: digits, optionally a dot and fraction
digits. -/
def parseDecAcc (acc : Nat) : List Char → Option ℚ
  | [] => Option.some (acc : ℚ)
  | c :: cs =>
    if c = '.' then
      (parseFracAcc 0 1 cs).map (fun fd => (acc : ℚ) + (fd.1 : ℚ) / (fd.2 : ℚ))
    else if c.isDigit then parseDecAcc (10 * acc + (c.toNat - 48)) cs
    else Option.none

/-- Python's builtin `float()` on a plain decimal literal (exact value as a
rational); `none` models `ValueError`. -/
def pyFloat (s : String) : Option ℚ :=
  if s.data.head? = Option.some '-' then
    (parseDecAcc 0 s.data.tail).map Neg.neg
  else parseDecAcc 0 s.data

/-- The `battery_voltage_mv` entry of the Supabase payload as a function of
`data.get("Battery Voltage (mV)")` (`Option.none` = key missing): numbers
(`float("nan")` included) pass through the `isinstance` arm unchanged, a
missing key or falsy value (`None`, `""`) maps to null, any other string is
parsed as `float(value.split()[0]) * 1000`, and an unparsable first token
raises `ValueError` out of the payload construction (`Except.error`). -/
def battery_voltage_mv_column (v : Option PyVal) : Except Unit (Option PyVal) :=
  match v with
  | Option.none => Except.ok Option.none
  | Option.some (PyVal.num q) => Except.ok (Option.some (PyVal.num q))
  | Option.some PyVal.nan => Except.ok (Option.some PyVal.nan)
  | Option.some PyVal.none => Except.ok Option.none
  | Option.some (PyVal.str s) =>
    if s = "" then Except.ok Option.none
    else
      match pyFloat (pySplitFirst s) with
      | Option.some q => Except.ok (Option.some (PyVal.num (q * 1000)))
      | Option.none => Except.error ()

/-- Every entry `natDigits` produces is a decimal digit. -/
theorem natDigits_lt_ten : ∀ (fuel n d : Nat), d ∈ natDigits fuel n → d < 10 := by
  intro fuel
  induction fuel with
  | zero => intro n d h; simp [natDigits] at h
  | succ f ih =>
    intro n d h
    rw [natDigits] at h
    split at h
    · simp at h
    · rw [List.mem_append] at h
      rcases h with h | h
      · exact ih _ _ h
      · simp at h
        omega

/-- Character-class facts about decimal digit characters. -/
theorem digitChar_props (d : Nat) (h : d < 10) :
    (digitChar d).isDigit = true ∧ ¬(digitChar d = '.') ∧
      (digitChar d).isWhitespace = false ∧ (digitChar d).toNat - 48 = d ∧
      ¬(digitChar d = '-') := by
  interval_cases d <;> exact ⟨by decide, by decide, by decide, by decide, by decide⟩

/-- Running the fraction parser over rendered digits accumulates their
value and multiplies the denominator by `10 ^ length`. -/
theorem parseFracAcc_digits : ∀ (ds : List Nat), (∀ d ∈ ds, d < 10) →
    ∀ (num den : Nat),
      parseFracAcc num den (ds.map digitChar) =
        Option.some (ds.foldl (fun a d => 10 * a + d) num, den * 10 ^ ds.length) := by
  intro ds
  induction ds with
  | nil => intro _ num den; simp [parseFracAcc]
  | cons d ds ih =>
    intro h num den
    have hd := digitChar_props d (h d (List.mem_cons_self d ds))
    simp only [List.map_cons, parseFracAcc, hd.1, if_true, hd.2.2.2.1]
    rw [ih (fun e he => h e (List.mem_cons_of_mem d he)) (10 * num + d) (10 * den)]
    simp only [List.foldl_cons, List.length_cons, Option.some.injEq,
      Prod.mk.injEq, true_and]
    ring

/-- Running the decimal parser over rendered digits accumulates their value
and continues on the rest of the input. -/
theorem parseDecAcc_digits : ∀ (ds : List Nat), (∀ d ∈ ds, d < 10) →
    ∀ (acc : Nat) (rest : List Char),
      parseDecAcc acc (ds.map digitChar ++ rest) =
        parseDecAcc (ds.foldl (fun a d => 10 * a + d) acc) rest := by
  intro ds
  induction ds with
  | nil => intro _ acc rest; simp
  | cons d ds ih =>
    intro h acc rest
    have hd := digitChar_props d (h d (List.mem_cons_self d ds))
    simp only [List.map_cons, List.cons_append, parseDecAcc, hd.1, if_true,
      if_neg hd.2.1, hd.2.2.2.1, List.append_eq]
    rw [ih (fun e he => h e (List.mem_cons_of_mem d he)) (10 * acc + d) rest]
    simp

/-- The value folded back out of `natDigits` is the original number. -/
theorem natDigits_foldl : ∀ (fuel n : Nat), n ≤ fuel → ∀ (acc : Nat),
    (natDigits fuel n).foldl (fun a d => 10 * a + d) acc =
      acc * 10 ^ (natDigits fuel n).length + n := by
  intro fuel
  induction fuel with
  | zero =>
    intro n hn acc
    interval_cases n
    simp [natDigits]
  | succ f ih =>
    intro n hn acc
    rw [natDigits]
    by_cases h0 : n = 0
    · simp [h0]
    · rw [if_neg h0, List.foldl_append, List.length_append]
      rw [ih (n / 10) (by omega) acc]
      simp only [List.foldl_cons, List.foldl_nil, List.length_cons,
        List.length_nil, Nat.zero_add, pow_succ]
      have hdm : 10 * (n / 10) + n % 10 = n := by omega
      calc 10 * (acc * 10 ^ (natDigits f (n / 10)).length + n / 10) + n % 10
          = acc * (10 ^ (natDigits f (n / 10)).length * 10) +
              (10 * (n / 10) + n % 10) := by ring
        _ = acc * (10 ^ (natDigits f (n / 10)).length * 10) + n := by rw [hdm]

/-- `natDigits` of `n < 10 ^ k` has at most `k` digits. -/
theorem natDigits_length_le : ∀ (fuel n k : Nat), n ≤ fuel → n < 10 ^ k →
    (natDigits fuel n).length ≤ k := by
  intro fuel
  induction fuel with
  | zero => intro n k hn _; interval_cases n; simp [natDigits]
  | succ f ih =>
    intro n k hn hk
    rw [natDigits]
    by_cases h0 : n = 0
    · simp [h0]
    · rw [if_neg h0, List.length_append]
      match k with
      | 0 => exact absurd hk (by simp; omega)
      | k + 1 =>
        have hdiv : n / 10 < 10 ^ k := by
          rw [Nat.div_lt_iff_lt_mul (by norm_num)]
          calc n < 10 ^ (k + 1) := hk
            _ = 10 ^ k * 10 := by rw [pow_succ]
        have := ih (n / 10) k (by omega) hdiv
        simp only [List.length_cons, List.length_nil]
        omega

/-- The rendered decimal string of `n` is a nonempty digit-character list
whose folded value is `n`. -/
theorem natStr_digits (n : Nat) : ∃ ds : List Nat, (∀ d ∈ ds, d < 10) ∧
    (natStr n).data = ds.map digitChar ∧
    ds.foldl (fun a d => 10 * a + d) 0 = n ∧ ds ≠ [] := by
  by_cases h0 : n = 0
  · subst h0
    exact ⟨[0], by simp, by decide, by decide, by simp⟩
  · refine ⟨natDigits n n, fun d hd => natDigits_lt_ten n n d hd, ?_, ?_, ?_⟩
    · rw [natStr, if_neg h0]
    · simpa using natDigits_foldl n n le_rfl 0
    · match n, h0 with
      | n + 1, _ =>
        rw [natDigits]
        simp

/-- `fracDigits` is the digit rendering of the zero-padded digit list. -/
theorem fracDigits_eq_map (width n : Nat) :
    fracDigits width n =
      (List.replicate (width - (natDigits n n).length) 0 ++
        natDigits n n).map digitChar := by
  have h0 : digitChar 0 = '0' := by decide
  rw [fracDigits, padZeroes, List.map_append, List.map_replicate, h0,
    List.length_map]

/-- Folding digits over a run of zeroes scales the accumulator. -/
theorem foldl_replicate_zero : ∀ (k acc : Nat),
    (List.replicate k 0).foldl (fun a d => 10 * a + d) acc = acc * 10 ^ k := by
  intro k
  induction k with
  | zero => intro acc; simp
  | succ j ih =>
    intro acc
    rw [List.replicate_succ, List.foldl_cons, ih]
    ring

/-- Structure of the 3-decimal rendering of `u / 1000`: integer digits, a
dot, then exactly 3 fraction digits, with the folded values recovering
`u / 1000` and `u % 1000`. -/
theorem fmtFixed_data (u : Nat) : ∃ ds fs : List Nat,
    (∀ d ∈ ds, d < 10) ∧ (∀ d ∈ fs, d < 10) ∧ ds ≠ [] ∧
    (fmtFixed 3 1000 u).data = ds.map digitChar ++ '.' :: fs.map digitChar ∧
    ds.foldl (fun a d => 10 * a + d) 0 = u / 1000 ∧
    fs.foldl (fun a d => 10 * a + d) 0 = u % 1000 ∧ fs.length = 3 := by
  obtain ⟨ds, hds10, hdata, hval, hne⟩ := natStr_digits (u / 1000)
  have hrlt : u % 1000 < 1000 := Nat.mod_lt _ (by norm_num)
  have hlen3 : (natDigits (u % 1000) (u % 1000)).length ≤ 3 :=
    natDigits_length_le (u % 1000) (u % 1000) 3 le_rfl (by simpa using hrlt)
  refine ⟨ds, List.replicate (3 - (natDigits (u % 1000) (u % 1000)).length) 0 ++
    natDigits (u % 1000) (u % 1000), hds10, ?_, hne, ?_, hval, ?_, ?_⟩
  · intro d hd
    rcases List.mem_append.mp hd with hd | hd
    · have := List.eq_of_mem_replicate hd
      omega
    · exact natDigits_lt_ten _ _ _ hd
  · rw [fmtFixed, String.data_append, String.data_append, hdata]
    rw [show ("." : String).data = ['.'] from rfl]
    rw [show (String.mk (fracDigits 3 (u % 1000))).data =
      fracDigits 3 (u % 1000) from rfl]
    rw [fracDigits_eq_map]
    simp
  · rw [List.foldl_append, foldl_replicate_zero]
    simpa using natDigits_foldl (u % 1000) (u % 1000) le_rfl 0
  · rw [List.length_append, List.length_replicate]
    omega

/-- Parsing back the 3-decimal rendering of `u / 1000` recovers it
exactly. -/
theorem pyFloat_fmtFixed (u : Nat) :
    pyFloat (fmtFixed 3 1000 u) = Option.some ((u : ℚ) / 1000) := by
  obtain ⟨ds, fs, hds10, hfs10, hne, hchars, hval, hfsval, hfslen⟩ :=
    fmtFixed_data u
  obtain ⟨d0, ds', rfl⟩ : ∃ d0 ds', ds = d0 :: ds' := by
    cases ds with
    | nil => exact absurd rfl hne
    | cons a l => exact ⟨a, l, rfl⟩
  have hd0 := digitChar_props d0 (hds10 d0 (List.mem_cons_self d0 ds'))
  rw [pyFloat, hchars, List.map_cons]
  rw [if_neg (by simp only [List.cons_append, List.head?_cons,
    Option.some.injEq]; exact hd0.2.2.2.2)]
  rw [← List.map_cons]
  rw [parseDecAcc_digits (d0 :: ds') hds10 0, hval]
  have hstep : parseDecAcc (u / 1000) ('.' :: fs.map digitChar) =
      (parseFracAcc 0 1 (fs.map digitChar)).map
        (fun fd => ((u / 1000 : Nat) : ℚ) + (fd.1 : ℚ) / (fd.2 : ℚ)) := by
    rw [parseDecAcc]
    simp
  rw [hstep, parseFracAcc_digits fs hfs10 0 1, hfsval, hfslen]
  have hcast : (1000 : ℚ) * ((u / 1000 : Nat) : ℚ) + ((u % 1000 : Nat) : ℚ) =
      (u : ℚ) := by
    exact_mod_cast Nat.div_add_mod u 1000
  simp only [Option.map_some', Option.some.injEq]
  rw [show ((1 * 10 ^ 3 : Nat) : ℚ) = 1000 by norm_num]
  field_simp
  linarith [hcast]

/-- The composite battery string is the volts rendering, a space, and the
temperature suffix. -/
theorem spec_battery_string_data (b0 b1 b2 b3 : Nat) :
    (spec_battery_string b0 b1 b2 b3).data =
      (fmtFixed 3 1000 (u16le b0 b1)).data ++ ' ' ::
        (("V (Temperature: " : String).data ++
          (fmtFixedInt 2 100 (i16le b2 b3)).data ++
          ("°C)" : String).data) := by
  rw [spec_battery_string]
  simp only [String.data_append, List.append_assoc]
  rfl

/-- `takeWhile` over an append stops exactly at the first failing
element. -/
theorem takeWhile_append_sentinel {α : Type} (p : α → Bool) :
    ∀ (xs : List α) (x : α) (ys : List α), (∀ a ∈ xs, p a = true) →
      p x = false → (xs ++ x :: ys).takeWhile p = xs := by
  intro xs
  induction xs with
  | nil =>
    intro x ys _ hx
    simp [List.takeWhile_cons, hx]
  | cons a as ih =>
    intro x ys h hx
    rw [List.cons_append, List.takeWhile_cons,
      if_pos (h a (List.mem_cons_self a as))]
    rw [ih x ys (fun b hb => h b (List.mem_cons_of_mem a hb)) hx]

/-- `split()[0]` of the composite battery string is exactly the volts
rendering: its characters are digits and a dot (non-whitespace) and the
space after it terminates the first token. -/
theorem pySplitFirst_battery (b0 b1 b2 b3 : Nat) :
    pySplitFirst (spec_battery_string b0 b1 b2 b3) =
      fmtFixed 3 1000 (u16le b0 b1) := by
  obtain ⟨ds, fs, hds10, hfs10, hne, hchars, -, -, -⟩ :=
    fmtFixed_data (u16le b0 b1)
  have hall : ∀ c ∈ (fmtFixed 3 1000 (u16le b0 b1)).data,
      (!c.isWhitespace) = true := by
    intro c hc
    rw [hchars] at hc
    rcases List.mem_append.mp hc with hc | hc
    · obtain ⟨d, hd, rfl⟩ := List.mem_map.mp hc
      simp [(digitChar_props d (hds10 d hd)).2.2.1]
    · rcases List.mem_cons.mp hc with rfl | hc
      · decide
      · obtain ⟨d, hd, rfl⟩ := List.mem_map.mp hc
        simp [(digitChar_props d (hfs10 d hd)).2.2.1]
  obtain ⟨d0, ds', rfl⟩ : ∃ d0 ds', ds = d0 :: ds' := by
    cases ds with
    | nil => exact absurd rfl hne
    | cons a l => exact ⟨a, l, rfl⟩
  have hd0ws : (digitChar d0).isWhitespace = false :=
    (digitChar_props d0 (hds10 d0 (List.mem_cons_self d0 ds'))).2.2.1
  rw [pySplitFirst, spec_battery_string_data]
  rw [hchars, List.map_cons, List.cons_append, List.cons_append,
    List.dropWhile_cons]
  rw [if_neg (by simp [hd0ws])]
  rw [← List.cons_append, ← List.cons_append, ← List.map_cons, ← hchars]
  rw [takeWhile_append_sentinel _ (fmtFixed 3 1000 (u16le b0 b1)).data ' ' _
    hall (by decide)]

/-- C5: the remote sink's battery column.  A composite battery string has
its leading volts token extracted by `split()[0]`, parsed, and multiplied
by 1000 (millivolts, exactly `u16le(b0,b1)/1000 * 1000` as a rational); an
already-numeric value passes through unchanged; a missing battery field
yields a null column. -/
theorem battery_voltage_mv_column_spec :
    (∀ b0 b1 b2 b3 : Nat,
        battery_voltage_mv_column
            (Option.some (PyVal.str (spec_battery_string b0 b1 b2 b3))) =
          Except.ok (Option.some (PyVal.num
            ((u16le b0 b1 : ℚ) / 1000 * 1000)))) ∧
      (∀ q : ℚ, battery_voltage_mv_column (Option.some (PyVal.num q)) =
        Except.ok (Option.some (PyVal.num q))) ∧
      battery_voltage_mv_column Option.none = Except.ok Option.none := by
  refine ⟨?_, fun q => rfl, rfl⟩
  intro b0 b1 b2 b3
  have hne : spec_battery_string b0 b1 b2 b3 ≠ "" := by
    intro h
    have hd := congrArg String.data h
    rw [spec_battery_string_data] at hd
    rw [show ("" : String).data = [] from rfl] at hd
    exact absurd hd (List.append_ne_nil_of_right_ne_nil _ (by simp))
  simp only [battery_voltage_mv_column, if_neg hne]
  rw [pySplitFirst_battery, pyFloat_fmtFixed]

/-! ## File sink (sensorpush_python.py:125-142)

`write_to_csv` appends one row `[datetime.now().isoformat()] +
list(data.values())` to the hour file, writing a header row
`["Timestamp"] + list(data.keys())` first when the file is new.  Python's
`csv.writer` with the default dialect (QUOTE_MINIMAL) writes a field bare
unless it contains a comma, a quote, LF or CR, in which case it wraps it in
double quotes with inner quotes doubled; `csv.reader` inverts this. -/

/-- Whether `csv.writer` (QUOTE_MINIMAL) must quote the field. -/
def needsQuotingChars (f : List Char) : Bool :=
  f.any (fun c => c = ',' || c = '"' || c = '\n' || c = '\r')

/-- Double every quote character (the writer's quote escaping). -/
def csvEscape : List Char → List Char
  | [] => []
  | c :: cs =>
    if c = '"' then '"' :: '"' :: csvEscape cs else c :: csvEscape cs

/-- One field as `csv.writer` emits it: bare, or quoted with inner quotes
doubled. -/
def csvEncodeChars (f : List Char) : List Char :=
  if needsQuotingChars f then '"' :: csvEscape f ++ ['"'] else f

/-- Comma-join of already-encoded fields: one CSV row, no terminator. -/
def csvJoin : List (List Char) → List Char
  | [] => []
  | [f] => f
  | f :: fs => f ++ ',' :: csvJoin fs

/-- One row as `csv.writer.writerow` emits it. -/
def csvRow (fields : List String) : String :=
  String.mk (csvJoin (fields.map (fun f => csvEncodeChars f.data)))

mutual

/-- `csv.reader` on one row, at the start of a field. -/
def csvFields : List Char → List (List Char)
  | [] => [[]]
  | c :: cs =>
    if c = '"' then csvQuoted [] cs
    else if c = ',' then [] :: csvFields cs
    else csvBare [c] cs

/-- `csv.reader` inside an unquoted field. -/
def csvBare (cur : List Char) : List Char → List (List Char)
  | [] => [cur]
  | c :: cs => if c = ',' then cur :: csvFields cs else csvBare (cur ++ [c]) cs

/-- `csv.reader` inside a quoted field. -/
def csvQuoted (cur : List Char) : List Char → List (List Char)
  | [] => [cur]
  | c :: cs =>
    if c = '"' then csvAfterQuote cur cs
    else csvQuoted (cur ++ [c]) cs

/-- `csv.reader` just after a quote inside a quoted field: a second quote
is a literal quote, a comma closes the field, end of input closes the row
(a stray character resumes the field, as the non-strict reader does). -/
def csvAfterQuote (cur : List Char) : List Char → List (List Char)
  | [] => [cur]
  | c :: cs =>
    if c = '"' then csvQuoted (cur ++ ['"']) cs
    else if c = ',' then cur :: csvFields cs
    else csvBare (cur ++ [c]) cs

end

/-- `csv.reader` on one row, as strings. -/
def csvParseRow (s : String) : List String :=
  (csvFields s.data).map String.mk

/-- Unfolding lemma for `csvFields` on a nonempty row. -/
theorem csvFields_cons (c : Char) (cs : List Char) :
    csvFields (c :: cs) =
      if c = '"' then csvQuoted [] cs
      else if c = ',' then [] :: csvFields cs
      else csvBare [c] cs := by
  rw [csvFields.eq_def]

/-- An unquoted field runs to the end of the row. -/
theorem csvBare_no_comma : ∀ (f cur : List Char), (∀ c ∈ f, ¬(c = ',')) →
    csvBare cur f = [cur ++ f] := by
  intro f
  induction f with
  | nil => intro cur _; simp [csvBare]
  | cons c cs ih =>
    intro cur h
    rw [csvBare, if_neg (h c (List.mem_cons_self c cs))]
    rw [ih (cur ++ [c]) (fun b hb => h b (List.mem_cons_of_mem c hb))]
    simp

/-- An unquoted field runs to the next comma. -/
theorem csvBare_comma : ∀ (f cur rest : List Char), (∀ c ∈ f, ¬(c = ',')) →
    csvBare cur (f ++ ',' :: rest) = (cur ++ f) :: csvFields rest := by
  intro f
  induction f with
  | nil => intro cur rest _; simp [csvBare]
  | cons c cs ih =>
    intro cur rest h
    rw [List.cons_append, csvBare, if_neg (h c (List.mem_cons_self c cs))]
    rw [ih (cur ++ [c]) rest (fun b hb => h b (List.mem_cons_of_mem c hb))]
    simp

/-- A quoted field whose closing quote ends the row parses back to the
unescaped field. -/
theorem csvQuoted_escape_end : ∀ (f cur : List Char),
    csvQuoted cur (csvEscape f ++ ['"']) = [cur ++ f] := by
  intro f
  induction f with
  | nil => intro cur; simp [csvEscape, csvQuoted, csvAfterQuote]
  | cons c cs ih =>
    intro cur
    by_cases hc : c = '"'
    · subst hc
      rw [csvEscape, if_pos rfl, List.cons_append, List.cons_append]
      rw [csvQuoted, if_pos rfl, csvAfterQuote, if_pos rfl]
      rw [ih (cur ++ ['"'])]
      simp
    · rw [csvEscape, if_neg hc, List.cons_append, csvQuoted, if_neg hc]
      rw [ih (cur ++ [c])]
      simp

/-- A quoted field whose closing quote is followed by a comma parses back
to the unescaped field, then the rest of the row. -/
theorem csvQuoted_escape_comma : ∀ (f cur rest : List Char),
    csvQuoted cur (csvEscape f ++ '"' :: ',' :: rest) =
      (cur ++ f) :: csvFields rest := by
  intro f
  induction f with
  | nil =>
    intro cur rest
    simp [csvEscape, csvQuoted, csvAfterQuote]
  | cons c cs ih =>
    intro cur rest
    by_cases hc : c = '"'
    · subst hc
      rw [csvEscape, if_pos rfl, List.cons_append, List.cons_append]
      rw [csvQuoted, if_pos rfl, csvAfterQuote, if_pos rfl]
      rw [ih (cur ++ ['"']) rest]
      simp
    · rw [csvEscape, if_neg hc, List.cons_append, csvQuoted, if_neg hc]
      rw [ih (cur ++ [c]) rest]
      simp

/-- Quoting never leaves a comma or quote visible to the bare scanner;
conversely an unquoted emitted field has no comma.  Characters of a field
that needs no quoting are not commas. -/
theorem no_comma_of_not_quoting (f : List Char) (h : needsQuotingChars f = false) :
    ∀ c ∈ f, ¬(c = ',') := by
  intro c hc heq
  rw [needsQuotingChars, List.any_eq_false] at h
  have := h c hc
  simp [heq] at this

/-- A field that needs no quoting does not start with a quote. -/
theorem no_quote_of_not_quoting (f : List Char) (h : needsQuotingChars f = false) :
    ∀ c ∈ f, ¬(c = '"') := by
  intro c hc heq
  rw [needsQuotingChars, List.any_eq_false] at h
  have := h c hc
  simp [heq] at this

/-- One encoded field at the end of the row parses back to the field. -/
theorem csvFields_enc_end (f : List Char) :
    csvFields (csvEncodeChars f) = [f] := by
  rw [csvEncodeChars]
  by_cases hq : needsQuotingChars f
  · rw [if_pos hq, List.cons_append, csvFields_cons, if_pos rfl]
    simpa using csvQuoted_escape_end f []
  · rw [if_neg hq]
    rw [Bool.not_eq_true] at hq
    match f with
    | [] => rfl
    | c :: cs =>
      have hmem := List.mem_cons_self c cs
      rw [csvFields_cons, if_neg (no_quote_of_not_quoting _ hq c hmem),
        if_neg (no_comma_of_not_quoting _ hq c hmem)]
      have hcs : ∀ b ∈ cs, ¬(b = ',') := fun b hb =>
        no_comma_of_not_quoting _ hq b (List.mem_cons_of_mem c hb)
      rw [csvBare_no_comma cs [c] hcs]
      simp

/-- One encoded field followed by a comma parses back to the field and the
parse of the rest. -/
theorem csvFields_enc_comma (f rest : List Char) :
    csvFields (csvEncodeChars f ++ ',' :: rest) = f :: csvFields rest := by
  rw [csvEncodeChars]
  by_cases hq : needsQuotingChars f
  · rw [if_pos hq, List.append_assoc, List.singleton_append,
      List.cons_append, csvFields_cons, if_pos rfl]
    simpa using csvQuoted_escape_comma f [] rest
  · rw [if_neg hq]
    rw [Bool.not_eq_true] at hq
    match f with
    | [] =>
      rw [List.nil_append, csvFields_cons, if_neg (by decide), if_pos rfl]
    | c :: cs =>
      have hmem := List.mem_cons_self c cs
      rw [List.cons_append, csvFields_cons,
        if_neg (no_quote_of_not_quoting _ hq c hmem),
        if_neg (no_comma_of_not_quoting _ hq c hmem)]
      have hcs : ∀ b ∈ cs, ¬(b = ',') := fun b hb =>
        no_comma_of_not_quoting _ hq b (List.mem_cons_of_mem c hb)
      rw [csvBare_comma cs [c] rest hcs]
      simp

/-- Parsing a written row recovers exactly the fields that were written. -/
theorem csvFields_join : ∀ (fields : List (List Char)), fields ≠ [] →
    csvFields (csvJoin (fields.map csvEncodeChars)) = fields := by
  intro fields
  induction fields with
  | nil => intro h; exact absurd rfl h
  | cons f fs ih =>
    intro _
    cases fs with
    | nil => exact csvFields_enc_end f
    | cons g gs =>
      rw [List.map_cons,
        show csvJoin (csvEncodeChars f :: (g :: gs).map csvEncodeChars) =
          csvEncodeChars f ++ ',' ::
            csvJoin ((g :: gs).map csvEncodeChars) from rfl]
      rw [csvFields_enc_comma f _, ih (by simp)]

/-- String-level round trip: `csv.reader` inverts `csv.writer` on any
row. -/
theorem csvParseRow_csvRow (fields : List String) (hne : fields ≠ []) :
    csvParseRow (csvRow fields) = fields := by
  rw [csvParseRow, csvRow]
  rw [show (String.mk (csvJoin (fields.map (fun f => csvEncodeChars f.data)))).data
    = csvJoin (fields.map (fun f => csvEncodeChars f.data)) from rfl]
  rw [show fields.map (fun f => csvEncodeChars f.data) =
    (fields.map String.data).map csvEncodeChars by rw [List.map_map]; rfl]
  rw [csvFields_join (fields.map String.data) (by simpa using hne)]
  rw [List.map_map]
  rw [show (String.mk ∘ String.data) = id from funext fun s => rfl, List.map_id]

/-- Python `str()` of an integer. -/
def intStr (z : ℤ) : String := (if z < 0 then "-" else "") ++ natStr z.natAbs

/-- Python `str()` of a record value as `csv.writer` stringifies cells:
strings are written as-is, `None` and `nan` as Python prints them, and a
numeric value as an exact integer/ratio rendering (Python prints the
shortest float repr; the round-trip theorem compares written and re-parsed
text, so it holds for any fixed rendering). -/
def pyStr : PyVal → String
  | PyVal.none => "None"
  | PyVal.nan => "nan"
  | PyVal.str s => s
  | PyVal.num q =>
    intStr q.num ++ (if q.den = 1 then "" else "/" ++ natStr q.den)

/-- `write_to_csv` (sensorpush_python.py:125-142) on the current hour file:
append a header row naming `"Timestamp"` and then each record key when the
file is new, then one data row holding the write-time timestamp and the
record's values. -/
def write_to_csv (file_exists : Bool) (existing : List String) (ts : String)
    (data : List (String × PyVal)) : List String :=
  existing ++
    (if file_exists then []
     else [csvRow ("Timestamp" :: data.map Prod.fst)]) ++
    [csvRow (ts :: data.map (fun kv => pyStr kv.2))]

/-- C6: file-sink round trip.  Writing a filtered record to a fresh hour
file emits the header row and one data row; re-parsing both rows and
dropping the leading timestamp column recovers, field for field, exactly
the record passed in — each key and the written text of each value. -/
theorem write_to_csv_roundtrip (data : List (String × PyVal)) (ts : String) :
    write_to_csv false [] ts data =
        [csvRow ("Timestamp" :: data.map Prod.fst),
         csvRow (ts :: data.map (fun kv => pyStr kv.2))] ∧
      csvParseRow (csvRow ("Timestamp" :: data.map Prod.fst)) =
        "Timestamp" :: data.map Prod.fst ∧
      csvParseRow (csvRow (ts :: data.map (fun kv => pyStr kv.2))) =
        ts :: data.map (fun kv => pyStr kv.2) ∧
      (csvParseRow (csvRow ("Timestamp" :: data.map Prod.fst))).tail.zip
          (csvParseRow (csvRow (ts :: data.map (fun kv => pyStr kv.2)))).tail =
        data.map (fun kv => (kv.1, pyStr kv.2)) := by
  have hh := csvParseRow_csvRow ("Timestamp" :: data.map Prod.fst) (by simp)
  have hr := csvParseRow_csvRow (ts :: data.map (fun kv => pyStr kv.2)) (by simp)
  refine ⟨by simp [write_to_csv], hh, hr, ?_⟩
  rw [hh, hr]
  simp only [List.tail_cons]
  rw [List.zip_map']

end SensorPush
